import Mathlib

/-!
Verification of the identifier-interning and attribute-record subsystem of
the `nix` expression evaluator (files `src/libexpr/symbol-table.hh`,
`src/libexpr/attr-set.cc`, `src/libexpr/primops.hh`).

The C++ code is shallowly embedded: the symbol table becomes a structure
holding the backing store (the `ChunkedVector<std::string>` of owned
strings, in insertion order) and the hash index (`std::unordered_map`
from text to store index, modelled as an association list); member
functions become pure functions threading the table state explicitly.
`abort()` on invalid symbol access is modelled by `Option.none`; the
recoverable size-limit error of `allocBindings` by `Except.error`.
-/

set_option maxRecDepth 40000

namespace NixSpec

/-- `Symbol` from `symbol-table.hh`: a dense integer identifier wrapping
`uint32_t id`; `Symbol()` default-constructs to id 0 ("no symbol"). -/
structure Symbol where
  id : Nat
deriving DecidableEq, Repr

/-- The default-constructed `Symbol()`, id 0. -/
def Symbol.noSym : Symbol := ⟨0⟩

/-- `operator bool` of `Symbol`: `id > 0`. -/
def Symbol.toBool (s : Symbol) : Bool := s.id > 0

/-- `MinimalSymbolTable` from `symbol-table.hh`: `store` is the
`ChunkedVector<std::string, 8192>` backing store (an append-only sequence
of owned strings, in insertion order — chunking only affects address
stability, not the sequence's contents); `symbols` is the
`std::unordered_map<std::string_view, std::pair<const std::string *, uint32_t>>`
hash index, modelled as an association list from interned text to the
store index (the `const std::string *` component always points at the
stored string itself, so only the index is carried). -/
structure MinimalSymbolTable where
  store : List String
  symbols : List (String × Nat)
deriving Repr

/-- A freshly constructed (empty) `MinimalSymbolTable`. -/
def MinimalSymbolTable.emptyTable : MinimalSymbolTable := ⟨[], []⟩

/-- `symbols.find(s)` on the hash index: the store index recorded for
text `s`, if any. -/
def MinimalSymbolTable.findIdx (t : MinimalSymbolTable) (s : String) : Option Nat :=
  (t.symbols.find? (fun p => p.1 == s)).map (·.2)

/-- `MinimalSymbolTable::insert` (symbol-table.hh:79-84): `store.add`
appends a copy of `s` and yields the new entry's index (the store size
before the append); `symbols.emplace` then records the mapping — like
`std::unordered_map::emplace`, it does nothing when the key is already
present. Returns `Symbol(idx + 1)` and the updated table. -/
def MinimalSymbolTable.insert (t : MinimalSymbolTable) (s : String) :
    Symbol × MinimalSymbolTable :=
  let idx := t.store.length
  let symbols' := if (t.findIdx s).isSome then t.symbols else t.symbols ++ [(s, idx)]
  (⟨idx + 1⟩, ⟨t.store ++ [s], symbols'⟩)

/-- `MinimalSymbolTable::create` (symbol-table.hh:87-96): look `s` up in
the hash index; on a hit return `Symbol(it->second.second + 1)` with the
table unchanged, otherwise fall through to `insert`. -/
def MinimalSymbolTable.create (t : MinimalSymbolTable) (s : String) :
    Symbol × MinimalSymbolTable :=
  match t.findIdx s with
  | some i => (⟨i + 1⟩, t)
  | none => t.insert s

/-- `MinimalSymbolTable::operator[]` (symbol-table.hh:107-112): `abort()`
— modelled as `none` — when `s.id == 0 || s.id > store.size()`; otherwise
the view of `store[s.id - 1]`. -/
def MinimalSymbolTable.opIndex (t : MinimalSymbolTable) (s : Symbol) : Option String :=
  if s.id = 0 ∨ s.id > t.store.length then none
  else t.store[s.id - 1]?

/-- `MinimalSymbolTable::resolve` (symbol-table.hh:98-105): batch lookup,
pushing `(*this)[sym]` for each input symbol in order; an `abort()` inside
`operator[]` (a `none`) aborts the whole batch. -/
def MinimalSymbolTable.resolve (t : MinimalSymbolTable) :
    List Symbol → Option (List String)
  | [] => some []
  | s :: rest =>
    match t.opIndex s, t.resolve rest with
    | some str, some strs => some (str :: strs)
    | _, _ => none

/-- `MinimalSymbolTable::size` (symbol-table.hh:114-117): `store.size()`. -/
def MinimalSymbolTable.size (t : MinimalSymbolTable) : Nat := t.store.length

/-- Consistency of the hash index with the backing store: every entry of
the `symbols` map records an index at which the store holds exactly the
entry's key. This is the data-structure invariant that `create` maintains
(proved below) and that every reachable table state satisfies. -/
def MinimalSymbolTable.WF (t : MinimalSymbolTable) : Prop :=
  ∀ p ∈ t.symbols, t.store[p.2]? = some p.1

/-- Modelled from the spec: `PosIdx`, the source-position tag carried by an
attribute (its definition lives outside the provided sources); informational
only and not part of ordering. -/
structure PosIdx where
  idx : Nat
deriving DecidableEq, Repr

/-- `noPos`, the absent position used by `BindingsBuilder::allocOp`. -/
def noPos : PosIdx := ⟨0⟩

/-- Modelled from the spec: a `Value *` cell handed out by the evaluator's
allocation facility (`EvalState::allocValue`); each call yields a fresh
cell, so a cell is modelled by its allocation number. -/
abbrev ValueRef := Nat

/-- Modelled from the spec: `Attr`, the (symbol identifier, value
reference, source position) triple stored in an attribute record
(`attr-set.hh` is not among the provided sources). Its `operator<`,
used by `Bindings::sort`, compares the symbol identifiers. -/
structure Attr where
  name : Symbol
  value : ValueRef
  pos : PosIdx
deriving DecidableEq, Repr

/-- The `operator<`-induced weak order `std::sort` works with: `Attr`
comparison is by symbol identifier. -/
def Attr.le (a b : Attr) : Prop := a.name.id ≤ b.name.id

instance : DecidableRel Attr.le := fun a b => Nat.decLe a.name.id b.name.id

instance : IsTotal Attr Attr.le := ⟨fun a b => Nat.le_total a.name.id b.name.id⟩

instance : IsTrans Attr Attr.le := ⟨fun _ _ _ h h' => Nat.le_trans h h'⟩

/-- Modelled from the spec: `Bindings`, the fixed-capacity attribute
record (`attr-set.hh` is not among the provided sources): a capacity
fixed at allocation plus the sequence of appended triples (`size_` is the
sequence's length). -/
structure Bindings where
  capacity : Nat
  attrs : List Attr
deriving DecidableEq, Repr

/-- Modelled from the spec: `Bindings::push_back` appends one triple at
the next free slot; appending beyond `capacity` is a caller contract
violation, not checked here just as it is not checked in the code. -/
def Bindings.push_back (b : Bindings) (a : Attr) : Bindings :=
  { b with attrs := b.attrs ++ [a] }

/-- `Bindings::size_`. -/
def Bindings.size (b : Bindings) : Nat := b.attrs.length

/-- `Bindings::sort` (attr-set.cc:77-82): when `size_ != 0`, sort the
triples in place with `std::sort(begin(), end())` under `Attr`'s
`operator<`; `std::sort` (an unstable comparison sort) is modelled by
insertion sort by the same order — any comparison sort yields some
permutation ordered by the comparator, which is all the code relies on
since duplicate identifiers cannot occur under correct usage. -/
def Bindings.sort (b : Bindings) : Bindings :=
  if b.size ≠ 0 then { b with attrs := b.attrs.insertionSort Attr.le } else b

/-- The shared `emptyBindings` instance (capacity 0, no entries) that
`allocBindings(0)` returns the address of. -/
def emptyBindings : Bindings := ⟨0, []⟩

/-- Result of `EvalState::allocBindings`: either the address of the one
shared `emptyBindings` object, or a freshly placement-new'd record.
Reference identity is modelled by the constructor: every capacity-0 call
yields the `sharedEmpty` reference, a fresh allocation never does. -/
inductive BindingsRef where
  | sharedEmpty
  | fresh (b : Bindings)
deriving DecidableEq, Repr

/-- The `Bindings` object a `BindingsRef` designates. -/
def BindingsRef.deref : BindingsRef → Bindings
  | .sharedEmpty => emptyBindings
  | .fresh b => b

/-- `std::numeric_limits<Bindings::size_t>::max()`. Modelled from the
spec: `Bindings::size_t` (declared in the absent `attr-set.hh`) is the
32-bit size field of a record, so the maximum representable record size
is `2^32 - 1`. -/
def bindingsSizeMax : Nat := 2 ^ 32 - 1

/-- The recoverable evaluation-time error of `allocBindings`:
`Error("attribute set of size %d is too big", capacity)` carries the
requested size. -/
inductive EvalError where
  | attrSetTooBig (capacity : Nat)
deriving DecidableEq, Repr

/-- The `EvalState` fields this subsystem touches: the symbol table, the
two profiling counters `nrAttrsets` and `nrAttrsInAttrsets`, and the
allocation facility for value cells (modelled as a fresh-cell counter). -/
structure EvalState where
  symbols : MinimalSymbolTable
  nrAttrsets : Nat
  nrAttrsInAttrsets : Nat
  nextValueCell : ValueRef
deriving Repr

/-- Modelled from the spec: `EvalState::allocValue` obtains one fresh
value cell from the bulk allocation facility. -/
def EvalState.allocValue (st : EvalState) : ValueRef × EvalState :=
  (st.nextValueCell, { st with nextValueCell := st.nextValueCell + 1 })

/-- `EvalState::allocBindings` (attr-set.cc:14-23): capacity 0 returns
`&emptyBindings` (counters untouched); capacity above
`std::numeric_limits<Bindings::size_t>::max()` throws the size-limit
`Error` carrying the capacity (counters untouched); otherwise bump
`nrAttrsets` by one and `nrAttrsInAttrsets` by the capacity and
placement-new a `Bindings(capacity)` with no entries yet. -/
def EvalState.allocBindings (st : EvalState) (capacity : Nat) :
    Except EvalError (BindingsRef × EvalState) :=
  if capacity = 0 then .ok (.sharedEmpty, st)
  else if capacity > bindingsSizeMax then .error (.attrSetTooBig capacity)
  else .ok (.fresh ⟨capacity, []⟩,
    { st with
      nrAttrsets := st.nrAttrsets + 1
      nrAttrsInAttrsets := st.nrAttrsInAttrsets + capacity })

/-- `BindingsBuilder`: owns the in-progress record; the `EvalState &`
it holds is passed explicitly. -/
structure BindingsBuilder where
  bindings : Bindings
deriving Repr

/-- `BindingsBuilder::alloc(Symbol, PosIdx)` (attr-set.cc:43-48):
allocate a fresh value cell, push `Attr(name, value, pos)` onto the
owned record, and hand the cell back for the caller to fill. -/
def BindingsBuilder.alloc (bb : BindingsBuilder) (st : EvalState)
    (name : Symbol) (pos : PosIdx) : ValueRef × BindingsBuilder × EvalState :=
  let (value, st') := st.allocValue
  (value, ⟨bb.bindings.push_back ⟨name, value, pos⟩⟩, st')

/-- `BindingsBuilder::alloc(std::string_view, PosIdx)` (attr-set.cc:51-54):
intern the name through `state.symbols.create` first, then the symbol
overload. -/
def BindingsBuilder.allocStr (bb : BindingsBuilder) (st : EvalState)
    (name : String) (pos : PosIdx) : ValueRef × BindingsBuilder × EvalState :=
  let (sym, tbl) := st.symbols.create name
  bb.alloc { st with symbols := tbl } sym pos

/-- `BindingsBuilder::finish` (per `Value::mkAttrs` in attr-set.cc:85-89,
which consumes `bindings.finish()`): sort the owned record and yield it. -/
def BindingsBuilder.finish (bb : BindingsBuilder) : Bindings :=
  bb.bindings.sort

/-- Sequentially `insert` a list of strings, collecting the returned
symbols in order — the shape of `SymbolTable`'s member-initializer list. -/
def MinimalSymbolTable.insertAll (t : MinimalSymbolTable) :
    List String → List Symbol × MinimalSymbolTable
  | [] => ([], t)
  | s :: rest =>
    let (sym, t') := t.insert s
    let (syms, t'') := t'.insertAll rest
    (sym :: syms, t'')

/-- The strings passed to `insert` by the `SymbolTable` constructor
(symbol-table.hh:150-226), in member-initialization order. Note the
members `logicAnd` (position 35, 0-based) and `logicOr` (position 37)
are initialized with each other's spelling: `logicAnd(insert("logicOr"))`
and `logicOr(insert("logicAnd"))`, verbatim from lines 186 and 188. -/
def symbolTableCtorStrings : List String :=
  [ "__contentAddressed", "__functor", "__ignoreNulls", "__impure", "__operators",
    "__overrides", "__structuredAttrs", "__toString",
    "_combineChannels", "_type",
    "add", "allOutputs", "args", "body", "builder", "column", "concat",
    "derivation", "derivations", "description", "divide", "drvPath",
    "", "equal", "file", "flake", "follows", "has", "hydraJobs",
    "inputs", "imply", "import", "key", "lessThan", "line",
    "logicOr", "logicNot", "logicAnd",
    "mainProgram", "meta", "multiply", "name", "negate", "nixConfig", "nixPath",
    "operator", "or", "outPath", "outputHash", "outputHashAlgo", "outputHashMode",
    "outputName", "outputSpecified", "outputs", "outputsToInstall",
    "path", "pname", "prefix", "priority",
    "readFileType", "recurseForDerivations", "resolvePath", "right",
    "self", "startSet", "subtract", "system",
    "type", "update", "url", "urls", "value", "welcomeText", "<with>", "wrong" ]

/-- Running the `SymbolTable` constructor: the member symbols in
initialization order, and the resulting table state. -/
def symbolTableCtor : List Symbol × MinimalSymbolTable :=
  MinimalSymbolTable.emptyTable.insertAll symbolTableCtorStrings

namespace SymbolTable

/-- The table state of a freshly constructed enhanced `SymbolTable`. -/
def table : MinimalSymbolTable := symbolTableCtor.2

/-- The member `SymbolTable::logicAnd`, the 36th member initializer
(0-based position 35), initialized as `logicAnd(insert("logicOr"))`
(symbol-table.hh:186). -/
def logicAnd : Symbol := symbolTableCtor.1.getD 35 Symbol.noSym

/-- The member `SymbolTable::logicOr`, the 38th member initializer
(0-based position 37), initialized as `logicOr(insert("logicAnd"))`
(symbol-table.hh:188). -/
def logicOr : Symbol := symbolTableCtor.1.getD 37 Symbol.noSym

end SymbolTable

/-! The concrete builder scenario of spec §8 property 9: a fresh table,
`create("foo")`, `create("bar")`, `create("foo")` again, then a record
built with capacity 2, slots declared for "bar" and "foo", finished. -/

/-- Scenario step: `create("foo")` on a fresh table. -/
def c9Foo1 : Symbol × MinimalSymbolTable :=
  MinimalSymbolTable.emptyTable.create "foo"

/-- Scenario step: then `create("bar")`. -/
def c9Bar : Symbol × MinimalSymbolTable := c9Foo1.2.create "bar"

/-- Scenario step: then `create("foo")` again. -/
def c9Foo2 : Symbol × MinimalSymbolTable := c9Bar.2.create "foo"

/-- The evaluator state carrying the scenario's table. -/
def c9State : EvalState := ⟨c9Foo2.2, 0, 0, 0⟩

/-- Scenario step: `open(2)` — allocate a capacity-2 record and hand it
to a builder (`EvalState::buildBindings` wraps `allocBindings` this way). -/
def c9AfterOpen : BindingsBuilder × EvalState :=
  match c9State.allocBindings 2 with
  | .ok (r, st) => (⟨r.deref⟩, st)
  | .error _ => (⟨emptyBindings⟩, c9State)

/-- Scenario step: `declareSlot("bar")`. -/
def c9AfterBar : ValueRef × BindingsBuilder × EvalState :=
  c9AfterOpen.1.allocStr c9AfterOpen.2 "bar" noPos

/-- Scenario step: `declareSlot("foo")`. -/
def c9AfterFoo : ValueRef × BindingsBuilder × EvalState :=
  c9AfterBar.2.1.allocStr c9AfterBar.2.2 "foo" noPos

/-- Scenario step: `finish()` — the sorted record. -/
def c9Record : Bindings := c9AfterFoo.2.1.finish

/-! ### Helper lemmas about `create` -/

/-- On a hash-index hit, `create` returns the recorded identifier plus one
and leaves the table untouched. -/
lemma MinimalSymbolTable.create_eq_found {t : MinimalSymbolTable} {s : String} {i : Nat}
    (h : t.findIdx s = some i) : t.create s = (⟨i + 1⟩, t) := by
  unfold MinimalSymbolTable.create
  rw [h]

/-- On a hash-index miss, `create` falls through to `insert`: the text is
appended to the store, the index gains the new entry, and the returned
identifier is the new store size. -/
lemma MinimalSymbolTable.create_eq_inserted {t : MinimalSymbolTable} {s : String}
    (h : t.findIdx s = none) :
    t.create s =
      (⟨t.store.length + 1⟩, ⟨t.store ++ [s], t.symbols ++ [(s, t.store.length)]⟩) := by
  unfold MinimalSymbolTable.create MinimalSymbolTable.insert
  rw [h]
  simp [h]

/-- In a consistent table, a hash-index hit for `s` records an index at
which the store holds `s`. -/
lemma MinimalSymbolTable.findIdx_store {t : MinimalSymbolTable} {s : String} {i : Nat}
    (hwf : t.WF) (h : t.findIdx s = some i) : t.store[i]? = some s := by
  unfold MinimalSymbolTable.findIdx at h
  obtain ⟨p, hfind, hsnd⟩ := Option.map_eq_some'.mp h
  have hmem := List.mem_of_find?_eq_some hfind
  have hkey := List.find?_some hfind
  simp only [beq_iff_eq] at hkey
  have := hwf p hmem
  rw [hsnd] at this
  rwa [hkey] at this

/-- Looking an index up in a longer list that extends the original agrees
with the original wherever the original is defined. -/
lemma getElem?_extend {α : Type} {l₁ l₂ : List α} {i : Nat} {a : α}
    (hpre : l₁ <+: l₂) (h : l₁[i]? = some a) : l₂[i]? = some a := by
  obtain ⟨tl, rfl⟩ := hpre
  rw [List.getElem?_append_left (List.getElem?_eq_some.mp h).1]
  exact h

/-- `create` hands back an identifier under which the resulting store
holds exactly the requested text. -/
lemma MinimalSymbolTable.create_store_at {t : MinimalSymbolTable} {s : String}
    (hwf : t.WF) : (t.create s).2.store[(t.create s).1.id - 1]? = some s := by
  cases h : t.findIdx s with
  | some i =>
    rw [MinimalSymbolTable.create_eq_found h]
    simpa using MinimalSymbolTable.findIdx_store hwf h
  | none =>
    rw [MinimalSymbolTable.create_eq_inserted h]
    simp [List.getElem?_concat_length]

/-- `create` only ever appends to the backing store. -/
lemma MinimalSymbolTable.create_store_extends (t : MinimalSymbolTable) (s : String) :
    t.store <+: (t.create s).2.store := by
  cases h : t.findIdx s with
  | some i => rw [MinimalSymbolTable.create_eq_found h]
  | none =>
    rw [MinimalSymbolTable.create_eq_inserted h]
    exact ⟨[s], rfl⟩

/-- `create` preserves the hash-index/store consistency invariant. -/
lemma MinimalSymbolTable.create_WF {t : MinimalSymbolTable} {s : String}
    (hwf : t.WF) : (t.create s).2.WF := by
  cases h : t.findIdx s with
  | some i => rw [MinimalSymbolTable.create_eq_found h]; exact hwf
  | none =>
    rw [MinimalSymbolTable.create_eq_inserted h]
    intro p hp
    rcases List.mem_append.mp hp with hold | hnew
    · exact getElem?_extend ⟨[s], rfl⟩ (hwf p hold)
    · rcases List.mem_singleton.mp hnew with rfl
      simp [List.getElem?_concat_length]

/-- After `create t s`, the hash index maps `s` to the returned
identifier minus one (whether the call hit or inserted). -/
lemma MinimalSymbolTable.create_findIdx_self (t : MinimalSymbolTable) (s : String) :
    (t.create s).2.findIdx s = some ((t.create s).1.id - 1) := by
  cases h : t.findIdx s with
  | some i => rw [MinimalSymbolTable.create_eq_found h]; simpa using h
  | none =>
    rw [MinimalSymbolTable.create_eq_inserted h]
    unfold MinimalSymbolTable.findIdx at h ⊢
    rw [List.find?_append, Option.map_eq_none'.mp h]
    simp

/-- `operator[]` succeeds on the successor of any index the store holds. -/
lemma MinimalSymbolTable.opIndex_of_store_at {t : MinimalSymbolTable} {i : Nat} {s : String}
    (h : t.store[i]? = some s) : t.opIndex ⟨i + 1⟩ = some s := by
  have hlt : i < t.store.length := (List.getElem?_eq_some.mp h).1
  unfold MinimalSymbolTable.opIndex
  rw [if_neg (by simp; omega)]
  simpa using h

/-- The identifier `create` returns is positive (it is a store index plus
one on both branches). -/
lemma MinimalSymbolTable.create_id_pos (t : MinimalSymbolTable) (s : String) :
    0 < (t.create s).1.id := by
  cases h : t.findIdx s with
  | some i => rw [MinimalSymbolTable.create_eq_found h]; exact Nat.succ_pos i
  | none => rw [MinimalSymbolTable.create_eq_inserted h]; exact Nat.succ_pos _

/-- Rebuilding the symbol `create` returned from its predecessor index
gives the symbol back (its identifier is positive). -/
lemma MinimalSymbolTable.create_fst_eta (t : MinimalSymbolTable) (s : String) :
    (⟨(t.create s).1.id - 1 + 1⟩ : Symbol) = (t.create s).1 := by
  have hpos := MinimalSymbolTable.create_id_pos t s
  cases h : (t.create s).1 with
  | mk n =>
    rw [h] at hpos
    simp at hpos ⊢
    omega

/-- Round-trip core: in a consistent table, `operator[]` on the symbol
`create t s` returned resolves to `s` in the updated table. -/
lemma MinimalSymbolTable.opIndex_create {t : MinimalSymbolTable} {s : String}
    (hwf : t.WF) : (t.create s).2.opIndex (t.create s).1 = some s := by
  have h := MinimalSymbolTable.opIndex_of_store_at
    (MinimalSymbolTable.create_store_at hwf (s := s))
  rwa [MinimalSymbolTable.create_fst_eta] at h

/-- The empty table's hash index is trivially consistent with its store. -/
lemma emptyTable_WF : MinimalSymbolTable.emptyTable.WF := by
  intro p hp
  exact absurd hp (by simp [MinimalSymbolTable.emptyTable])

/-- `operator[]` aborts exactly on identifier zero or an identifier
beyond the store size. -/
lemma MinimalSymbolTable.opIndex_eq_none_iff (t : MinimalSymbolTable) (sym : Symbol) :
    t.opIndex sym = none ↔ sym.id = 0 ∨ sym.id > t.size := by
  unfold MinimalSymbolTable.opIndex MinimalSymbolTable.size
  by_cases hc : sym.id = 0 ∨ sym.id > t.store.length
  · rw [if_pos hc]
    exact iff_of_true rfl hc
  · rw [if_neg hc]
    apply iff_of_false _ hc
    intro hnone
    rw [List.getElem?_eq_none_iff] at hnone
    push_neg at hc
    omega

/-! ### Claim theorems for the symbol table -/

/-- C1: For every text `s` and every symbol-table state, calling
`create(s)` twice returns the same identifier both times (the second call
leaves the table unchanged, inserting no new entry), and the identifier
returned by `create(s)` is never zero. -/
theorem create_idempotent_and_nonzero (t : MinimalSymbolTable) (s : String) :
    (t.create s).2.create s = ((t.create s).1, (t.create s).2) ∧
    (t.create s).1.id ≠ 0 := by
  have hfind := MinimalSymbolTable.create_findIdx_self t s
  have hpos := MinimalSymbolTable.create_id_pos t s
  refine ⟨?_, by omega⟩
  rw [MinimalSymbolTable.create_eq_found hfind, MinimalSymbolTable.create_fst_eta]

/-- C2: For every text `s` (the empty string included) and every
consistent table state, resolving the symbol returned by `create(s)`
yields text equal to `s`: `resolve(create(s)) == s`. -/
theorem resolve_create_roundtrip (t : MinimalSymbolTable) (s : String) (hwf : t.WF) :
    (t.create s).2.opIndex (t.create s).1 = some s :=
  MinimalSymbolTable.opIndex_create hwf

/-- Witness for C2, at the empty table and the empty string. -/
theorem resolve_create_roundtrip_witness :
    MinimalSymbolTable.emptyTable.WF ∧
    (MinimalSymbolTable.emptyTable.create "").2.opIndex
      (MinimalSymbolTable.emptyTable.create "").1 = some "" :=
  ⟨emptyTable_WF, resolve_create_roundtrip MinimalSymbolTable.emptyTable "" emptyTable_WF⟩

/-- C3: For every pair of distinct texts `s1 ≠ s2` and every consistent
table state, the identifiers returned by `create(s1)` and then
`create(s2)` are different. -/
theorem create_injective (t : MinimalSymbolTable) (s1 s2 : String)
    (hwf : t.WF) (hne : s1 ≠ s2) :
    ((t.create s1).2.create s2).1 ≠ (t.create s1).1 := by
  intro heq
  have h1 := MinimalSymbolTable.create_store_at hwf (s := s1)
  have hwf1 := MinimalSymbolTable.create_WF hwf (s := s1)
  have h2 := MinimalSymbolTable.create_store_at hwf1 (s := s2)
  have h1' := getElem?_extend (MinimalSymbolTable.create_store_extends (t.create s1).2 s2) h1
  rw [heq, h1'] at h2
  exact hne (Option.some.inj h2)

/-- Witness for C3: "foo" and "bar" on the empty table. -/
theorem create_injective_witness :
    MinimalSymbolTable.emptyTable.WF ∧ "foo" ≠ "bar" ∧
    ((MinimalSymbolTable.emptyTable.create "foo").2.create "bar").1 ≠
      (MinimalSymbolTable.emptyTable.create "foo").1 :=
  ⟨emptyTable_WF, by decide,
    create_injective MinimalSymbolTable.emptyTable "foo" "bar" emptyTable_WF (by decide)⟩

/-- C6: `resolve(id)` fails fatally (modelled by `none`) exactly when the
identifier is zero or exceeds the number of interned entries, and — on a
consistent table — resolving any identifier obtained from `create` on
that table succeeds. -/
theorem opIndex_abort_iff (t : MinimalSymbolTable) (sym : Symbol) (s : String)
    (hwf : t.WF) :
    (t.opIndex sym = none ↔ sym.id = 0 ∨ sym.id > t.size) ∧
    ((t.create s).2.opIndex (t.create s).1).isSome := by
  refine ⟨MinimalSymbolTable.opIndex_eq_none_iff t sym, ?_⟩
  rw [MinimalSymbolTable.opIndex_create hwf]
  rfl

/-- Witness for C6: the empty table, the invalid symbol zero, text "x". -/
theorem opIndex_abort_iff_witness :
    MinimalSymbolTable.emptyTable.WF ∧
    ((MinimalSymbolTable.emptyTable.opIndex ⟨0⟩ = none ↔
        (0 : Nat) = 0 ∨ 0 > MinimalSymbolTable.emptyTable.size) ∧
      ((MinimalSymbolTable.emptyTable.create "x").2.opIndex
        (MinimalSymbolTable.emptyTable.create "x").1).isSome) :=
  ⟨emptyTable_WF, opIndex_abort_iff MinimalSymbolTable.emptyTable ⟨0⟩ "x" emptyTable_WF⟩

/-- C8: batch `resolve` on a sequence of valid identifiers succeeds with a
sequence of the same length whose i-th element is the resolution of the
i-th input identifier — input order is preserved. -/
theorem resolve_batch_order_preserving (t : MinimalSymbolTable) (syms : List Symbol)
    (h : ∀ s ∈ syms, (t.opIndex s).isSome) :
    ∃ res, t.resolve syms = some res ∧ res.length = syms.length ∧
      ∀ i, i < syms.length →
        t.opIndex (syms.getD i Symbol.noSym) = some (res.getD i "") := by
  induction syms with
  | nil => exact ⟨[], rfl, rfl, fun i hi => absurd hi (by simp)⟩
  | cons s rest ih =>
    have hs := h s (List.mem_cons_self s rest)
    obtain ⟨str, hstr⟩ := Option.isSome_iff_exists.mp hs
    obtain ⟨res, hres, hlen, hidx⟩ := ih (fun x hx => h x (List.mem_cons_of_mem s hx))
    refine ⟨str :: res, ?_, by simp [hlen], ?_⟩
    · unfold MinimalSymbolTable.resolve
      rw [hstr, hres]
    · intro i hi
      cases i with
      | zero => simpa using hstr
      | succ n =>
        simp only [List.getD_cons_succ]
        exact hidx n (by simpa using hi)

/-- Witness for C8: the table holding "foo" and "bar", batch-resolving
the two identifiers in reverse insertion order. -/
theorem resolve_batch_order_preserving_witness :
    (∀ s ∈ [(⟨2⟩ : Symbol), ⟨1⟩], (c9Foo2.2.opIndex s).isSome) ∧
    (∃ res, c9Foo2.2.resolve [(⟨2⟩ : Symbol), ⟨1⟩] = some res ∧
      res.length = [(⟨2⟩ : Symbol), ⟨1⟩].length ∧
      ∀ i, i < [(⟨2⟩ : Symbol), ⟨1⟩].length →
        c9Foo2.2.opIndex ([(⟨2⟩ : Symbol), ⟨1⟩].getD i Symbol.noSym) =
          some (res.getD i "")) :=
  ⟨by decide, resolve_batch_order_preserving c9Foo2.2 [⟨2⟩, ⟨1⟩] (by decide)⟩

/-! ### Claim theorems for allocation and records -/

/-- C4: `allocBindings(0)` always returns the one shared empty-record
instance — the `sharedEmpty` reference, never a fresh allocation — with
the evaluator state, and in particular the two allocation counters,
unchanged. -/
theorem allocBindings_zero_shared (st : EvalState) :
    st.allocBindings 0 = .ok (.sharedEmpty, st) := rfl

/-- C5: a requested capacity beyond the maximum representable record size
makes `allocBindings` fail with the recoverable size-limit error carrying
the requested size, leaving the evaluator state (hence both counters)
untouched; any capacity between 1 and the maximum succeeds with a fresh
empty record of that capacity, bumping the record counter by one and the
slot counter by the capacity. -/
theorem allocBindings_size_limit (st : EvalState) (c : Nat) :
    (c > bindingsSizeMax → st.allocBindings c = .error (.attrSetTooBig c)) ∧
    (1 ≤ c → c ≤ bindingsSizeMax →
      st.allocBindings c = .ok (.fresh ⟨c, []⟩,
        { st with
          nrAttrsets := st.nrAttrsets + 1
          nrAttrsInAttrsets := st.nrAttrsInAttrsets + c })) := by
  have hmax : 0 < bindingsSizeMax := by decide
  constructor
  · intro hgt
    unfold EvalState.allocBindings
    rw [if_neg (by omega), if_pos hgt]
  · intro h1 h2
    unfold EvalState.allocBindings
    rw [if_neg (by omega), if_neg (by omega)]

/-- Witness for C5: capacity `2^32` overflows, capacity 2 succeeds, both
on a zeroed evaluator state. -/
theorem allocBindings_size_limit_witness :
    2 ^ 32 > bindingsSizeMax ∧ (1 ≤ 2 ∧ 2 ≤ bindingsSizeMax) ∧
    (⟨.emptyTable, 0, 0, 0⟩ : EvalState).allocBindings (2 ^ 32) =
      .error (.attrSetTooBig (2 ^ 32)) ∧
    (⟨.emptyTable, 0, 0, 0⟩ : EvalState).allocBindings 2 =
      .ok (.fresh ⟨2, []⟩, ⟨.emptyTable, 1, 2, 0⟩) :=
  ⟨by decide, ⟨by decide, by decide⟩,
    (allocBindings_size_limit ⟨.emptyTable, 0, 0, 0⟩ (2 ^ 32)).1 (by decide),
    (allocBindings_size_limit ⟨.emptyTable, 0, 0, 0⟩ 2).2 (by decide) (by decide)⟩

/-- C7: `finalize` (i.e. `Bindings::sort`) is a no-op on a size-zero
record, permutes the triples (so the size and the multiset of
(symbol, value, position) triples are unchanged, and the capacity too),
leaves them ordered by symbol identifier, and — when the appended symbol
identifiers are pairwise distinct — in strictly increasing
symbol-identifier order. -/
theorem finalize_sorts (b : Bindings) :
    (b.size = 0 → b.sort = b) ∧
    (b.sort).attrs.Perm b.attrs ∧
    (b.sort).size = b.size ∧
    (b.sort).capacity = b.capacity ∧
    List.Sorted Attr.le (b.sort).attrs ∧
    ((b.attrs.map fun a => a.name.id).Nodup →
      (b.sort).attrs.Pairwise fun x y => x.name.id < y.name.id) := by
  have hperm : (b.sort).attrs.Perm b.attrs := by
    unfold Bindings.sort
    split
    · exact List.perm_insertionSort Attr.le b.attrs
    · exact List.Perm.refl _
  have hsorted : List.Sorted Attr.le (b.sort).attrs := by
    unfold Bindings.sort
    split
    · exact List.sorted_insertionSort Attr.le b.attrs
    · next h =>
      have hnil : b.attrs = [] := List.length_eq_zero.mp (by simpa [Bindings.size] using h)
      rw [hnil]
      exact List.sorted_nil
  refine ⟨?_, hperm, ?_, ?_, hsorted, ?_⟩
  · intro h
    unfold Bindings.sort
    rw [if_neg (by simp [h])]
  · simpa [Bindings.size] using hperm.length_eq
  · unfold Bindings.sort
    split <;> rfl
  · intro hnodup
    have hnodup' : ((b.sort).attrs.map fun a => a.name.id).Nodup :=
      ((hperm.map fun a => a.name.id).nodup_iff).mpr hnodup
    have hne := List.pairwise_map.mp hnodup'
    exact (hsorted.and hne).imp fun h => Nat.lt_of_le_of_ne h.1 h.2

/-- Witness for C7: a capacity-2 record holding identifiers 2 then 1,
sorted into strictly increasing order. -/
theorem finalize_sorts_witness :
    ((Bindings.mk 2 [⟨⟨2⟩, 0, ⟨0⟩⟩, ⟨⟨1⟩, 1, ⟨0⟩⟩]).attrs.map fun a => a.name.id).Nodup ∧
    ((Bindings.mk 2 [⟨⟨2⟩, 0, ⟨0⟩⟩, ⟨⟨1⟩, 1, ⟨0⟩⟩]).sort).attrs.Pairwise
      (fun x y => x.name.id < y.name.id) :=
  ⟨by decide,
    (finalize_sorts (Bindings.mk 2 [⟨⟨2⟩, 0, ⟨0⟩⟩, ⟨⟨1⟩, 1, ⟨0⟩⟩])).2.2.2.2.2 (by decide)⟩

/-- C9: the concrete scenario — on a fresh table `create("foo")` yields
identifier 1, `create("bar")` yields 2, `create("foo")` again yields 1;
building with `open(2)`, `declareSlot("bar")`, `declareSlot("foo")` and
`finish()` yields a sorted record of size 2 whose entries in order carry
identifier 1 resolving to "foo", then identifier 2 resolving to "bar". -/
theorem builder_scenario :
    c9Foo1.1 = ⟨1⟩ ∧ c9Bar.1 = ⟨2⟩ ∧ c9Foo2.1 = ⟨1⟩ ∧
    c9Record.size = 2 ∧
    c9Record.attrs.map Attr.name = [⟨1⟩, ⟨2⟩] ∧
    c9Foo2.2.resolve (c9Record.attrs.map Attr.name) = some ["foo", "bar"] := by
  decide

/-- C10: in a freshly constructed enhanced `SymbolTable`, the member
`logicAnd` resolves to the text "logicOr" and the member `logicOr` to
"logicAnd" (their initializers are swapped in the constructor), so
`create("logicAnd")` returns the member `logicOr` and `create("logicOr")`
the member `logicAnd`. -/
theorem symbolTable_logic_members_swapped :
    SymbolTable.table.opIndex SymbolTable.logicAnd = some "logicOr" ∧
    SymbolTable.table.opIndex SymbolTable.logicOr = some "logicAnd" ∧
    (SymbolTable.table.create "logicAnd").1 = SymbolTable.logicOr ∧
    (SymbolTable.table.create "logicOr").1 = SymbolTable.logicAnd := by
  decide

end NixSpec
